import Mathlib

/-!
Shallow embedding of `src/game/thirdPersonController.js` from the boarscape
repository: the third-person movement/camera controller with its collision
and ground-clamping model.  JavaScript numbers are modelled as real numbers;
the three.js vector and quaternion helpers the controller calls are
translated from their three.js implementations.
-/

open scoped Classical

noncomputable section

namespace Boarscape

/-- three.js `Vector3`. -/
structure Vec3 where
  x : ℝ
  y : ℝ
  z : ℝ

namespace Vec3

def add (a b : Vec3) : Vec3 := ⟨a.x + b.x, a.y + b.y, a.z + b.z⟩

def sub (a b : Vec3) : Vec3 := ⟨a.x - b.x, a.y - b.y, a.z - b.z⟩

def scale (a : Vec3) (s : ℝ) : Vec3 := ⟨a.x * s, a.y * s, a.z * s⟩

/-- three.js `Vector3.crossVectors`. -/
def cross (a b : Vec3) : Vec3 :=
  ⟨a.y * b.z - a.z * b.y, a.z * b.x - a.x * b.z, a.x * b.y - a.y * b.x⟩

def lengthSq (a : Vec3) : ℝ := a.x * a.x + a.y * a.y + a.z * a.z

def length (a : Vec3) : ℝ := Real.sqrt a.lengthSq

/-- three.js `Vector3.normalize`: `divideScalar(length || 1)`. -/
def normalize (a : Vec3) : Vec3 :=
  a.scale (1 / (if a.length = 0 then 1 else a.length))

/-- three.js `Vector3.lerp(v, alpha)`: componentwise `x += (v.x - x) * alpha`. -/
def lerp (a b : Vec3) (t : ℝ) : Vec3 :=
  ⟨a.x + (b.x - a.x) * t, a.y + (b.y - a.y) * t, a.z + (b.z - a.z) * t⟩

/-- Assignment to the `y` component (`v.y = r` in JavaScript). -/
def setY (a : Vec3) (v : ℝ) : Vec3 := ⟨a.x, v, a.z⟩

end Vec3

/-- JavaScript `Math.atan2`, by quadrant cases (`atan2 0 0 = 0`). -/
def atan2 (y x : ℝ) : ℝ :=
  if 0 < x then Real.arctan (y / x)
  else if x < 0 then
    (if 0 ≤ y then Real.arctan (y / x) + Real.pi else Real.arctan (y / x) - Real.pi)
  else if 0 < y then Real.pi / 2
  else if y < 0 then -(Real.pi / 2)
  else 0

/-- `Number.EPSILON`. -/
def jsEpsilon : ℝ := (2 : ℝ) ^ (-52 : ℤ)

/-- three.js `Quaternion`. -/
structure Quat where
  x : ℝ
  y : ℝ
  z : ℝ
  w : ℝ

namespace Quat

def neg (q : Quat) : Quat := ⟨-q.x, -q.y, -q.z, -q.w⟩

def length (q : Quat) : ℝ :=
  Real.sqrt (q.x * q.x + q.y * q.y + q.z * q.z + q.w * q.w)

/-- three.js `Quaternion.normalize`. -/
def normalize (q : Quat) : Quat :=
  if q.length = 0 then ⟨0, 0, 0, 1⟩
  else ⟨q.x * (1 / q.length), q.y * (1 / q.length), q.z * (1 / q.length),
        q.w * (1 / q.length)⟩

/-- three.js `Quaternion.setFromAxisAngle` (axis assumed normalized). -/
def setFromAxisAngle (axis : Vec3) (angle : ℝ) : Quat :=
  ⟨axis.x * Real.sin (angle / 2), axis.y * Real.sin (angle / 2),
   axis.z * Real.sin (angle / 2), Real.cos (angle / 2)⟩

/-- three.js `Quaternion.slerp(qb, t)`. -/
def slerp (q qb : Quat) (t : ℝ) : Quat :=
  if t = 0 then q
  else if t = 1 then qb
  else
    let cosHalfTheta0 := q.w * qb.w + q.x * qb.x + q.y * qb.y + q.z * qb.z
    let tq := if cosHalfTheta0 < 0 then qb.neg else qb
    let cosHalfTheta := if cosHalfTheta0 < 0 then -cosHalfTheta0 else cosHalfTheta0
    if 1 ≤ cosHalfTheta then q
    else
      let sqrSinHalfTheta := 1 - cosHalfTheta * cosHalfTheta
      if sqrSinHalfTheta ≤ jsEpsilon then
        Quat.normalize
          ⟨(1 - t) * q.x + t * tq.x, (1 - t) * q.y + t * tq.y,
           (1 - t) * q.z + t * tq.z, (1 - t) * q.w + t * tq.w⟩
      else
        let sinHalfTheta := Real.sqrt sqrSinHalfTheta
        let halfTheta := atan2 sinHalfTheta cosHalfTheta
        let ratioA := Real.sin ((1 - t) * halfTheta) / sinHalfTheta
        let ratioB := Real.sin (t * halfTheta) / sinHalfTheta
        ⟨q.x * ratioA + tq.x * ratioB, q.y * ratioA + tq.y * ratioB,
         q.z * ratioA + tq.z * ratioB, q.w * ratioA + tq.w * ratioB⟩

end Quat

/-- The controlled character's root transform (externally owned `target`). -/
structure Target where
  position : Vec3
  quaternion : Quat

/-- A static circular obstacle (`treeColliders` entry). -/
structure Collider where
  position : Vec3
  radius : ℝ

/-- Environment snapshot returned by `createEnvironment`. -/
structure Env where
  groundY : ℝ
  boundsHalfSize : ℝ
  treeColliders : List Collider

/-- Observable callback invocations of a single `update` call.  `player.js`
also supplies an `onMovementChange(isMoving)` callback at construction; the
`ThirdPersonController` constructor never reads that option and `update`
never invokes it, so the embedding can only ever emit `jump`. -/
inductive Event where
  | jump : Event
  | movementChange (isMoving : Bool) : Event
deriving DecidableEq

/-- The mutable fields of a `ThirdPersonController` instance (the camera is
modelled by its position; its orientation is recomputed from `lookAt` each
frame before it is read). -/
structure ThirdPersonController where
  camera : Vec3
  target : Option Target
  environment : Option Env
  targetHeight : ℝ
  playerRadius : ℝ
  onJumpPresent : Bool
  velocity : Vec3
  onGround : Bool
  keysDown : List String
  jumpRequested : Bool
  dragging : Bool
  pointerId : Option ℝ
  lastPointerX : ℝ
  lastPointerY : ℝ
  yaw : ℝ
  phi : ℝ
  distance : ℝ

-- Constants fixed by the constructor (assigned to `this` and never mutated).

def walkSpeed : ℝ := 4.6

def runSpeed : ℝ := 7.4

def jumpSpeed : ℝ := 7.2

def gravity : ℝ := 18.5

def rotationSpeed : ℝ := 14

def minDistance : ℝ := 3.6

def maxDistance : ℝ := 18.0

def minPhi : ℝ := 0.55

def maxPhi : ℝ := 1.45

def cameraSmooth : ℝ := 14

/-- `rotateSpeed` constant in `_onPointerMove`. -/
def rotateSpeed : ℝ := 0.0042

/-- `margin` constant in the world-bounds clamp. -/
def margin : ℝ := 2.0

/-- `this._up`. -/
def up : Vec3 := ⟨0, 1, 0⟩

/-- The module-level `clamp(v, min, max)` helper. -/
def clamp (v lo hi : ℝ) : ℝ := max lo (min hi v)

/-- three.js `MathUtils.lerp(x, y, t) = (1 - t) * x + t * y`. -/
def lerpScalar (x y t : ℝ) : ℝ := (1 - t) * x + t * y

/-- The module-level `damp` helper (frame-rate independent exponential
damping). -/
def damp (current target lambda dt : ℝ) : ℝ :=
  lerpScalar current target (1 - Real.exp (-lambda * dt))

/-- The constructor: initial controller state. -/
def init (camera : Vec3) (target : Option Target) (environment : Option Env)
    (targetHeight playerRadius : ℝ) (onJumpPresent : Bool) :
    ThirdPersonController :=
  { camera := camera
    target := target
    environment := environment
    targetHeight := targetHeight
    playerRadius := playerRadius
    onJumpPresent := onJumpPresent
    velocity := ⟨0, 0, 0⟩
    onGround := true
    keysDown := []
    jumpRequested := false
    dragging := false
    pointerId := none
    lastPointerX := 0
    lastPointerY := 0
    yaw := 0
    phi := 1.12
    distance := 8.5 }

-- Input events.

structure KeyEvent where
  code : String
  keyRepeat : Bool

structure PointerEvent where
  button : ℕ
  pointerId : ℝ
  clientX : ℝ
  clientY : ℝ

structure WheelEvent where
  deltaY : ℝ

/-- `Set.add` on the key set. -/
def insertKey (c : String) (ks : List String) : List String :=
  if ks.contains c then ks else c :: ks

/-- `_onKeyDown`. -/
def onKeyDown (e : KeyEvent) (s : ThirdPersonController) : ThirdPersonController :=
  let s1 := { s with keysDown := insertKey e.code s.keysDown }
  if e.code = "Space" ∧ e.keyRepeat = false then { s1 with jumpRequested := true }
  else s1

/-- `_onKeyUp`. -/
def onKeyUp (e : KeyEvent) (s : ThirdPersonController) : ThirdPersonController :=
  { s with keysDown := s.keysDown.filter (fun k => k != e.code) }

/-- `_onPointerDown`. -/
def onPointerDown (e : PointerEvent) (s : ThirdPersonController) :
    ThirdPersonController :=
  if e.button ≠ 0 then s
  else
    { s with dragging := true, pointerId := some e.pointerId,
             lastPointerX := e.clientX, lastPointerY := e.clientY }

/-- The guard `!(this._pointerId != null && e.pointerId !== this._pointerId)`
common to `_onPointerMove` and `_onPointerUp`. -/
def pointerMatches (pid : Option ℝ) (eid : ℝ) : Prop :=
  match pid with
  | none => True
  | some p => eid = p

/-- `_onPointerMove`. -/
def onPointerMove (e : PointerEvent) (s : ThirdPersonController) :
    ThirdPersonController :=
  if s.dragging = false then s
  else if ¬ pointerMatches s.pointerId e.pointerId then s
  else
    let dx := e.clientX - s.lastPointerX
    let dy := e.clientY - s.lastPointerY
    { s with lastPointerX := e.clientX, lastPointerY := e.clientY,
             yaw := s.yaw - dx * rotateSpeed,
             phi := clamp (s.phi + dy * rotateSpeed) minPhi maxPhi }

/-- `_onPointerUp` (also the `pointercancel` handler). -/
def onPointerUp (e : PointerEvent) (s : ThirdPersonController) :
    ThirdPersonController :=
  if ¬ pointerMatches s.pointerId e.pointerId then s
  else { s with dragging := false, pointerId := none }

/-- `_onWheel`. -/
def onWheel (e : WheelEvent) (s : ThirdPersonController) : ThirdPersonController :=
  { s with distance :=
      clamp (s.distance + Real.sign e.deltaY * 0.85) minDistance maxDistance }

-- `update(dt)`, split into the controller's per-frame phases.

/-- `this.environment?.groundY ?? 0`. -/
def groundYOf : Option Env → ℝ
  | some e => e.groundY
  | none => 0

/-- `this.environment?.boundsHalfSize ?? 260`. -/
def boundsHalfOf : Option Env → ℝ
  | some e => e.boundsHalfSize
  | none => 260

/-- `this.environment?.treeColliders ?? []`. -/
def collidersOf : Option Env → List Collider
  | some e => e.treeColliders
  | none => []

/-- `xInput`. -/
def moveInputX (ks : List String) : ℝ :=
  (if ks.contains "KeyD" then 1 else 0) + (if ks.contains "KeyA" then -1 else 0)

/-- `zInput`. -/
def moveInputZ (ks : List String) : ℝ :=
  (if ks.contains "KeyW" then 1 else 0) + (if ks.contains "KeyS" then -1 else 0)

/-- `_moveDir` before normalization (lines 184-186). -/
def moveDirRawOf (ks : List String) (camForward : Vec3) : Vec3 :=
  let camRight := (camForward.cross up).normalize
  let m0 : Vec3 := ⟨0, 0, 0⟩
  let m1 := if moveInputX ks ≠ 0 then m0.add (camRight.scale (moveInputX ks)) else m0
  if moveInputZ ks ≠ 0 then m1.add (camForward.scale (moveInputZ ks)) else m1

/-- `hasMove`. -/
def movingOf (ks : List String) (camForward : Vec3) : Prop :=
  1e-6 < (moveDirRawOf ks camForward).lengthSq

/-- `_moveDir` after conditional normalization. -/
def moveDirOf (ks : List String) (camForward : Vec3) : Vec3 :=
  if movingOf ks camForward then (moveDirRawOf ks camForward).normalize
  else moveDirRawOf ks camForward

/-- `isRunning`. -/
def isRunning (ks : List String) : Bool :=
  ks.contains "ShiftLeft" || ks.contains "ShiftRight"

/-- `_desiredVel` (lines 191-193). -/
def desiredVelOf (ks : List String) (camForward : Vec3) : Vec3 :=
  (moveDirOf ks camForward).scale
    (if movingOf ks camForward then (if isRunning ks then runSpeed else walkSpeed)
     else 0)

/-- Horizontal velocity damping (lines 195-197; `velocity.y` untouched). -/
def dampHoriz (v dv : Vec3) (accel dt : ℝ) : Vec3 :=
  ⟨damp v.x dv.x accel dt, v.y, damp v.z dv.z accel dt⟩

/-- Camera-space forward flattened to the horizontal plane (lines 172-178). -/
def flattenForward (f : Vec3) : Vec3 :=
  let g : Vec3 := ⟨f.x, 0, f.z⟩
  if g.lengthSq < 1e-6 then ⟨0, 0, -1⟩ else g.normalize

/-- `camera.getWorldDirection` right after `camera.lookAt(targetPos)`:
the unit vector from the camera towards the aim point, with the three.js
`Matrix4.lookAt` fallback when the two coincide. -/
def lookDirection (camPos targetPos : Vec3) : Vec3 :=
  if (camPos.sub targetPos).lengthSq = 0 then ⟨0, 0, -1⟩
  else (targetPos.sub camPos).normalize

/-- `_cameraOffset` from spherical coordinates (lines 155-163). -/
def cameraOffsetOf (phi yaw dist : ℝ) : Vec3 :=
  ⟨Real.sin phi * Real.sin yaw * dist, Real.cos phi * dist,
   Real.sin phi * Real.cos yaw * dist⟩

/-- One iteration of the tree-collision loop body (lines 233-253), acting on
the pair (target position, velocity). -/
def resolveCollider (pr : ℝ) (pv : Vec3 × Vec3) (c : Collider) : Vec3 × Vec3 :=
  let p := pv.1
  let v := pv.2
  let dx := p.x - c.position.x
  let dz := p.z - c.position.z
  let r := pr + c.radius
  let d2 := dx * dx + dz * dz
  if d2 < r * r then
    let d := if Real.sqrt d2 = 0 then 0.0001 else Real.sqrt d2
    let nx := dx / d
    let nz := dz / d
    let push := r - d
    let p1 : Vec3 := ⟨p.x + nx * push, p.y, p.z + nz * push⟩
    let vn := v.x * nx + v.z * nz
    let v1 : Vec3 := if vn < 0 then ⟨v.x - vn * nx, v.y, v.z - vn * nz⟩ else v
    (p1, v1)
  else (p, v)

/-- The whole tree-collision loop (lines 230-255). -/
def resolveColliders (pr : ℝ) (cols : List Collider) (pv : Vec3 × Vec3) :
    Vec3 × Vec3 :=
  cols.foldl (resolveCollider pr) pv

/-- Result of the jump/gravity/integration/clamping part of `update`. -/
structure Phys where
  pos : Vec3
  vel : Vec3
  grounded : Bool
  fired : Bool

/-- Lines 199-255 of `update`: jump consumption, gravity, position
integration, ground clamp, world-bounds clamp and tree collisions. -/
def physStep (env : Option Env) (pr : ℝ) (onGround0 jumpReq : Bool)
    (vel1 pos0 : Vec3) (dt : ℝ) : Phys :=
  let fired := onGround0 && jumpReq
  let vel2 := if fired then vel1.setY jumpSpeed else vel1
  let og1 := if fired then false else onGround0
  let vel3 := if og1 then vel2 else vel2.setY (vel2.y - gravity * dt)
  let pos1 : Vec3 := ⟨pos0.x + vel3.x * dt, pos0.y + vel3.y * dt,
                      pos0.z + vel3.z * dt⟩
  let g := groundYOf env
  let pos2 := if pos1.y ≤ g then pos1.setY g else pos1
  let vel4 := if pos1.y ≤ g then vel3.setY 0 else vel3
  let og2 := if pos1.y ≤ g then true else og1
  let half := boundsHalfOf env
  let pos3 : Vec3 := ⟨clamp pos2.x (-half + margin) (half - margin), pos2.y,
                      clamp pos2.z (-half + margin) (half - margin)⟩
  let pv := resolveColliders pr (collidersOf env) (pos3, vel4)
  ⟨pv.1, pv.2, og2, fired⟩

/-- `update(dt)`: the per-frame entry point.  Returns the new controller
state and the list of callback invocations it performed. -/
def update (dt : ℝ) (s : ThirdPersonController) :
    ThirdPersonController × List Event :=
  match s.target with
  | none => (s, [])
  | some tgt =>
    let targetPos : Vec3 := ⟨tgt.position.x, tgt.position.y + s.targetHeight,
                             tgt.position.z⟩
    let desiredCameraPos := targetPos.add (cameraOffsetOf s.phi s.yaw s.distance)
    let cameraPos := s.camera.lerp desiredCameraPos (1 - Real.exp (-cameraSmooth * dt))
    let camForward := flattenForward (lookDirection cameraPos targetPos)
    let accel : ℝ := if movingOf s.keysDown camForward then 18 else 14
    let vel1 := dampHoriz s.velocity (desiredVelOf s.keysDown camForward) accel dt
    let ph := physStep s.environment s.playerRadius s.onGround s.jumpRequested
      vel1 tgt.position dt
    let quat1 :=
      if movingOf s.keysDown camForward then
        tgt.quaternion.slerp
          (Quat.setFromAxisAngle up
            (atan2 (moveDirOf s.keysDown camForward).x
              (moveDirOf s.keysDown camForward).z))
          (1 - Real.exp (-rotationSpeed * dt))
      else tgt.quaternion
    ({ s with camera := cameraPos, velocity := ph.vel, onGround := ph.grounded,
              jumpRequested := false, target := some ⟨ph.pos, quat1⟩ },
     if ph.fired && s.onJumpPresent then [Event.jump] else [])

-- Derived notions used to state the claims.

/-- The target's x coordinate (0 when no target is attached). -/
def targetPosX (s : ThirdPersonController) : ℝ :=
  match s.target with
  | some t => t.position.x
  | none => 0

/-- The target's y coordinate (0 when no target is attached). -/
def targetPosY (s : ThirdPersonController) : ℝ :=
  match s.target with
  | some t => t.position.y
  | none => 0

/-- The target's z coordinate (0 when no target is attached). -/
def targetPosZ (s : ThirdPersonController) : ℝ :=
  match s.target with
  | some t => t.position.z
  | none => 0

/-- The condition under which an `update` call applies the jump impulse
(the branch at lines 200-204, reached only when a target is attached). -/
def jumpFires (s : ThirdPersonController) : Bool :=
  s.target.isSome && (s.onGround && s.jumpRequested)

/-- How many of the `update` calls in a run apply the jump impulse. -/
def countFires : List ℝ → ThirdPersonController → ℕ
  | [], _ => 0
  | dt :: rest, s => (if jumpFires s then 1 else 0) + countFires rest (update dt s).1

/-- Iterating `damp` with fixed arguments. -/
def dampIter (current target lambda dt : ℝ) : ℕ → ℝ
  | 0 => current
  | n + 1 => damp (dampIter current target lambda dt n) target lambda dt

/-- The controller states reachable from construction through input events
and `update` calls. -/
inductive Reachable : ThirdPersonController → Prop where
  | constructed (camera : Vec3) (target : Option Target) (environment : Option Env)
      (targetHeight playerRadius : ℝ) (onJumpPresent : Bool) :
      Reachable (init camera target environment targetHeight playerRadius onJumpPresent)
  | keyDown (s : ThirdPersonController) (e : KeyEvent) :
      Reachable s → Reachable (onKeyDown e s)
  | keyUp (s : ThirdPersonController) (e : KeyEvent) :
      Reachable s → Reachable (onKeyUp e s)
  | pointerDown (s : ThirdPersonController) (e : PointerEvent) :
      Reachable s → Reachable (onPointerDown e s)
  | pointerMove (s : ThirdPersonController) (e : PointerEvent) :
      Reachable s → Reachable (onPointerMove e s)
  | pointerUp (s : ThirdPersonController) (e : PointerEvent) :
      Reachable s → Reachable (onPointerUp e s)
  | wheel (s : ThirdPersonController) (e : WheelEvent) :
      Reachable s → Reachable (onWheel e s)
  | step (s : ThirdPersonController) (dt : ℝ) :
      Reachable s → Reachable (update dt s).1

/-- Whether an emitted event is the jump callback. -/
def Event.isJump : Event → Bool
  | .jump => true
  | .movementChange _ => false

/-- Iterated wheel events (one `_onWheel` call per `deltaY` in the list). -/
def wheelRun (ds : List ℝ) (s : ThirdPersonController) : ThirdPersonController :=
  ds.foldl (fun s d => onWheel ⟨d⟩ s) s

-- Basic facts about the helpers.

theorem le_clamp (v lo hi : ℝ) : lo ≤ clamp v lo hi := le_max_left _ _

theorem clamp_le (v lo hi : ℝ) (h : lo ≤ hi) : clamp v lo hi ≤ hi :=
  max_le h (min_le_left _ _)

theorem damp_fixed (x lambda dt : ℝ) : damp x x lambda dt = x := by
  simp [damp, lerpScalar]; ring

theorem Vec3.lengthSq_nonneg (v : Vec3) : 0 ≤ v.lengthSq := by
  simp only [Vec3.lengthSq]
  nlinarith [mul_self_nonneg v.x, mul_self_nonneg v.y, mul_self_nonneg v.z]

theorem resolveCollider_pos_y (pr : ℝ) (pv : Vec3 × Vec3) (c : Collider) :
    ((resolveCollider pr pv c).1).y = pv.1.y := by
  simp only [resolveCollider]
  split_ifs <;> rfl

theorem resolveCollider_vel_y (pr : ℝ) (pv : Vec3 × Vec3) (c : Collider) :
    ((resolveCollider pr pv c).2).y = pv.2.y := by
  simp only [resolveCollider]
  split_ifs <;> rfl

theorem resolveColliders_pos_y (pr : ℝ) (cols : List Collider) :
    ∀ pv : Vec3 × Vec3, ((resolveColliders pr cols pv).1).y = pv.1.y := by
  induction cols with
  | nil => intro pv; rfl
  | cons c rest ih =>
      intro pv
      have h1 : resolveColliders pr (c :: rest) pv =
          resolveColliders pr rest (resolveCollider pr pv c) := rfl
      rw [h1, ih, resolveCollider_pos_y]

theorem resolveColliders_vel_y (pr : ℝ) (cols : List Collider) :
    ∀ pv : Vec3 × Vec3, ((resolveColliders pr cols pv).2).y = pv.2.y := by
  induction cols with
  | nil => intro pv; rfl
  | cons c rest ih =>
      intro pv
      have h1 : resolveColliders pr (c :: rest) pv =
          resolveColliders pr rest (resolveCollider pr pv c) := rfl
      rw [h1, ih, resolveCollider_vel_y]

-- Projections of `update`.

theorem update_none (dt : ℝ) (s : ThirdPersonController) (h : s.target = none) :
    update dt s = (s, []) := by
  simp [update, h]

theorem update_phi (dt : ℝ) (s : ThirdPersonController) :
    ((update dt s).1).phi = s.phi := by
  cases h : s.target <;> simp [update, h]

theorem update_distance (dt : ℝ) (s : ThirdPersonController) :
    ((update dt s).1).distance = s.distance := by
  cases h : s.target <;> simp [update, h]

theorem update_jumpRequested_some (dt : ℝ) (s : ThirdPersonController)
    (tgt : Target) (h : s.target = some tgt) :
    ((update dt s).1).jumpRequested = false := by
  simp [update, h]

theorem update_target_isSome (dt : ℝ) (s : ThirdPersonController)
    (h : s.target.isSome = true) : ((update dt s).1).target.isSome = true := by
  obtain ⟨tgt, htgt⟩ := Option.isSome_iff_exists.mp h
  simp [update, htgt]

/-- C10: with no target attached, `update(dt)` returns immediately and is a
complete no-op: the whole controller state, the jump-request flag included,
is unchanged and no callback fires. -/
theorem update_noTarget_noop (dt : ℝ) (s : ThirdPersonController)
    (h : s.target = none) : update dt s = (s, []) :=
  update_none dt s h

theorem update_noTarget_noop_witness :
    (init ⟨0, 0, 0⟩ none none 1.25 0.55 false).target = none ∧
      update 1 (init ⟨0, 0, 0⟩ none none 1.25 0.55 false) =
        (init ⟨0, 0, 0⟩ none none 1.25 0.55 false, []) :=
  ⟨rfl, update_noTarget_noop 1 _ rfl⟩

theorem all_isJump_condJump (c : Prop) [Decidable c] :
    ((if c then [Event.jump] else []).all Event.isJump) = true := by
  split <;> rfl

/-- C1: no run of `update` ever emits a movement-state-change callback
invocation: every event it can emit is the jump callback.  The constructor
of `ThirdPersonController` ignores the `onMovementChange` option that
`player.js` passes, and `update` contains no moving/idle transition
tracking, so the callback that the spec (and the caller) expect is never
invoked. -/
theorem update_never_movementChange (dt : ℝ) (s : ThirdPersonController) :
    ((update dt s).2).all Event.isJump = true := by
  cases h : s.target with
  | none => simp [update, h]
  | some tgt =>
      simp only [update, h]
      exact all_isJump_condJump _

-- Jump consumption.

theorem physStep_airborne (env : Option Env) (pr : ℝ) (jr jr' : Bool)
    (vel1 pos0 : Vec3) (dt : ℝ) :
    physStep env pr false jr vel1 pos0 dt = physStep env pr false jr' vel1 pos0 dt := by
  simp [physStep]

theorem countFires_of_not_requested (dts : List ℝ) :
    ∀ s : ThirdPersonController, s.jumpRequested = false → countFires dts s = 0 := by
  induction dts with
  | nil => intro s _; rfl
  | cons dt rest ih =>
      intro s hjr
      have hf : jumpFires s = false := by simp [jumpFires, hjr]
      have hnext : ((update dt s).1).jumpRequested = false := by
        cases h : s.target with
        | none => rw [update_none dt s h]; exact hjr
        | some tgt => exact update_jumpRequested_some dt s tgt h
      simp [countFires, hf, ih _ hnext]

/-- C5: a held jump key yields exactly one jump-impulse application.
Starting grounded, with the jump-request flag set by the one non-repeat
key-down and no later key events, exactly one `update` in the run takes
the jump branch; and consuming a jump request while airborne has no
effect at all (the whole `update` result is identical whether or not
the request was pending), because the flag is cleared unconditionally. -/
theorem jump_edge_trigger :
    (∀ (dts : List ℝ) (s : ThirdPersonController), s.target.isSome = true →
      s.onGround = true → s.jumpRequested = true → dts ≠ [] →
      countFires dts s = 1)
    ∧ (∀ (dt : ℝ) (s : ThirdPersonController), s.target.isSome = true →
      s.onGround = false →
      update dt { s with jumpRequested := true } =
        update dt { s with jumpRequested := false }) := by
  constructor
  · intro dts s hsome hog hjr hne
    cases dts with
    | nil => exact absurd rfl hne
    | cons dt rest =>
        have hf : jumpFires s = true := by simp [jumpFires, hsome, hog, hjr]
        have hnext : ((update dt s).1).jumpRequested = false := by
          obtain ⟨tgt, htgt⟩ := Option.isSome_iff_exists.mp hsome
          exact update_jumpRequested_some dt s tgt htgt
        simp [countFires, hf, countFires_of_not_requested rest _ hnext]
  · intro dt s hsome hog
    obtain ⟨tgt, htgt⟩ := Option.isSome_iff_exists.mp hsome
    cases s with
    | mk camera target environment targetHeight playerRadius onJumpPresent
        velocity onGround keysDown jumpRequested dragging pointerId
        lastPointerX lastPointerY yaw phi distance =>
        simp only at htgt hog
        subst htgt
        subst hog
        simp only [update]
        rw [physStep_airborne environment playerRadius true false]

/-- Witness for C5 at a concrete run: one grounded frame with the request
pending counts one jump, and an airborne frame ignores a pending request. -/
theorem jump_edge_trigger_witness :
    (onKeyDown ⟨"Space", false⟩
        (init ⟨0, 0, 0⟩ (some ⟨⟨0, 0, 0⟩, ⟨0, 0, 0, 1⟩⟩)
          (some ⟨0, 260, []⟩) 1.25 0.55 false)).target.isSome = true
    ∧ (onKeyDown ⟨"Space", false⟩
        (init ⟨0, 0, 0⟩ (some ⟨⟨0, 0, 0⟩, ⟨0, 0, 0, 1⟩⟩)
          (some ⟨0, 260, []⟩) 1.25 0.55 false)).onGround = true
    ∧ (onKeyDown ⟨"Space", false⟩
        (init ⟨0, 0, 0⟩ (some ⟨⟨0, 0, 0⟩, ⟨0, 0, 0, 1⟩⟩)
          (some ⟨0, 260, []⟩) 1.25 0.55 false)).jumpRequested = true
    ∧ countFires [1]
        (onKeyDown ⟨"Space", false⟩
          (init ⟨0, 0, 0⟩ (some ⟨⟨0, 0, 0⟩, ⟨0, 0, 0, 1⟩⟩)
            (some ⟨0, 260, []⟩) 1.25 0.55 false)) = 1
    ∧ update 1 { onKeyDown ⟨"Space", false⟩
          (init ⟨0, 0, 0⟩ (some ⟨⟨0, 0, 0⟩, ⟨0, 0, 0, 1⟩⟩)
            (some ⟨0, 260, []⟩) 1.25 0.55 false) with
          onGround := false, jumpRequested := true }
      = update 1 { onKeyDown ⟨"Space", false⟩
          (init ⟨0, 0, 0⟩ (some ⟨⟨0, 0, 0⟩, ⟨0, 0, 0, 1⟩⟩)
            (some ⟨0, 260, []⟩) 1.25 0.55 false) with
          onGround := false, jumpRequested := false } := by
  refine ⟨?_, ?_, ?_, ?_, ?_⟩
  · rfl
  · simp [onKeyDown, init]
  · simp [onKeyDown, init, insertKey]
  · exact jump_edge_trigger.1 [1]
      (onKeyDown ⟨"Space", false⟩
        (init ⟨0, 0, 0⟩ (some ⟨⟨0, 0, 0⟩, ⟨0, 0, 0, 1⟩⟩)
          (some ⟨0, 260, []⟩) 1.25 0.55 false))
      (by simp [onKeyDown, init]) (by simp [onKeyDown, init])
      (by simp [onKeyDown, init, insertKey]) (by simp)
  · exact jump_edge_trigger.2 1
      { onKeyDown ⟨"Space", false⟩
          (init ⟨0, 0, 0⟩ (some ⟨⟨0, 0, 0⟩, ⟨0, 0, 0, 1⟩⟩)
            (some ⟨0, 260, []⟩) 1.25 0.55 false) with
        onGround := false }
      (by simp [onKeyDown, init]) (by simp [onKeyDown, init])

-- Vertical behaviour of the physics phase.

theorem update_physParts (dt : ℝ) (s : ThirdPersonController) (tgt : Target)
    (h : s.target = some tgt) :
    ∃ vel1 : Vec3,
      targetPosY ((update dt s).1) =
        ((physStep s.environment s.playerRadius s.onGround s.jumpRequested vel1
          tgt.position dt).pos).y
      ∧ ((update dt s).1).velocity =
        (physStep s.environment s.playerRadius s.onGround s.jumpRequested vel1
          tgt.position dt).vel
      ∧ ((update dt s).1).onGround =
        (physStep s.environment s.playerRadius s.onGround s.jumpRequested vel1
          tgt.position dt).grounded
      ∧ vel1.y = s.velocity.y := by
  simp only [update, h, targetPosY]
  exact ⟨_, rfl, rfl, rfl, rfl⟩

theorem physStep_ground_le_pos_y (env : Option Env) (pr : ℝ) (og jr : Bool)
    (vel1 pos0 : Vec3) (dt : ℝ) :
    groundYOf env ≤ ((physStep env pr og jr vel1 pos0 dt).pos).y := by
  simp only [physStep]
  rw [resolveColliders_pos_y]
  split_ifs <;> simp_all [Vec3.setY] <;> linarith

theorem physStep_grounded_or (env : Option Env) (pr : ℝ) (og jr : Bool)
    (vel1 pos0 : Vec3) (dt : ℝ) :
    (physStep env pr og jr vel1 pos0 dt).grounded = true
    ∨ groundYOf env < ((physStep env pr og jr vel1 pos0 dt).pos).y := by
  simp only [physStep]
  rw [resolveColliders_pos_y]
  split_ifs <;> simp_all [Vec3.setY]

theorem physStep_rest (env : Option Env) (pr : ℝ) (vel1 pos0 : Vec3) (dt : ℝ)
    (hg : groundYOf env = 0) (hvy : vel1.y = 0) (hpy : pos0.y = 0) :
    ((physStep env pr true false vel1 pos0 dt).pos).y = 0
    ∧ ((physStep env pr true false vel1 pos0 dt).vel).y = 0
    ∧ (physStep env pr true false vel1 pos0 dt).grounded = true := by
  simp only [physStep]
  rw [resolveColliders_pos_y, resolveColliders_vel_y]
  simp [hg, hvy, hpy, Vec3.setY]

/-- C4 (amended direction): after any `update` with a target attached, if the
character's height is at or below ground height then `onGround` is true.
(The converse fails: construction sets `onGround := true` without looking at
the target's height, see the counterexample.) -/
theorem onGround_after_update (dt : ℝ) (s : ThirdPersonController) (tgt : Target)
    (h : s.target = some tgt)
    (hy : targetPosY ((update dt s).1) ≤ groundYOf s.environment) :
    ((update dt s).1).onGround = true := by
  obtain ⟨vel1, hpy, _, hog, _⟩ := update_physParts dt s tgt h
  rw [hog]
  rcases physStep_grounded_or s.environment s.playerRadius s.onGround
      s.jumpRequested vel1 tgt.position dt with h1 | h1
  · exact h1
  · rw [hpy] at hy; linarith

/-- Counterexample to C4 as stated: the construction state (explicitly
included in the claim) has `onGround = true` while the target sits strictly
above ground height, because the constructor initializes `onGround := true`
unconditionally. -/
theorem onGround_iff_counterexample :
    (init ⟨0, 0, 0⟩ (some ⟨⟨0, 1, 0⟩, ⟨0, 0, 0, 1⟩⟩) (some ⟨0, 260, []⟩)
      1.25 0.55 false).onGround = true
    ∧ groundYOf (init ⟨0, 0, 0⟩ (some ⟨⟨0, 1, 0⟩, ⟨0, 0, 0, 1⟩⟩)
        (some ⟨0, 260, []⟩) 1.25 0.55 false).environment
      < targetPosY (init ⟨0, 0, 0⟩ (some ⟨⟨0, 1, 0⟩, ⟨0, 0, 0, 1⟩⟩)
          (some ⟨0, 260, []⟩) 1.25 0.55 false) := by
  constructor
  · rfl
  · simp [init, targetPosY, groundYOf]

/-- Witness for C4's amended theorem at a concrete grounded frame. -/
theorem onGround_after_update_witness :
    (init ⟨0, 0, 0⟩ (some ⟨⟨0, 0, 0⟩, ⟨0, 0, 0, 1⟩⟩) (some ⟨0, 260, []⟩)
        1.25 0.55 false).target = some ⟨⟨0, 0, 0⟩, ⟨0, 0, 0, 1⟩⟩
    ∧ ((update 1 (init ⟨0, 0, 0⟩ (some ⟨⟨0, 0, 0⟩, ⟨0, 0, 0, 1⟩⟩)
        (some ⟨0, 260, []⟩) 1.25 0.55 false)).1).onGround = true := by
  have hy : targetPosY ((update 1 (init ⟨0, 0, 0⟩
      (some ⟨⟨0, 0, 0⟩, ⟨0, 0, 0, 1⟩⟩) (some ⟨0, 260, []⟩)
      1.25 0.55 false)).1) = 0 := by
    obtain ⟨vel1, hpy, _, _, hv1y⟩ := update_physParts 1 (init ⟨0, 0, 0⟩
      (some ⟨⟨0, 0, 0⟩, ⟨0, 0, 0, 1⟩⟩) (some ⟨0, 260, []⟩)
      1.25 0.55 false) ⟨⟨0, 0, 0⟩, ⟨0, 0, 0, 1⟩⟩ rfl
    rw [hpy]
    exact (physStep_rest (some ⟨0, 260, []⟩) 0.55 vel1 ⟨0, 0, 0⟩ 1 rfl
      (by rw [hv1y]; rfl) rfl).1
  exact ⟨rfl, onGround_after_update 1 _ ⟨⟨0, 0, 0⟩, ⟨0, 0, 0, 1⟩⟩ rfl (by rw [hy]; rfl)⟩

/-- C6: with `groundY = 0` the ground clamp never leaves the character below
ground after an `update` (first part), and a grounded resting state with no
jump request stays exactly at height `0` with vertical velocity `0`
(second part). -/
theorem ground_clamp_idempotence (dt : ℝ) :
    (∀ (s : ThirdPersonController) (tgt : Target), s.target = some tgt →
      groundYOf s.environment = 0 → s.jumpRequested = false →
      s.velocity.y ≤ 0 → 0 < dt → 0 < tgt.position.y →
      0 ≤ targetPosY ((update dt s).1))
    ∧ (∀ (s : ThirdPersonController) (tgt : Target), s.target = some tgt →
      groundYOf s.environment = 0 → s.jumpRequested = false →
      s.onGround = true → tgt.position.y = 0 → s.velocity.y = 0 →
      targetPosY ((update dt s).1) = 0 ∧ ((update dt s).1).velocity.y = 0) := by
  constructor
  · intro s tgt h hg _ _ _ _
    obtain ⟨vel1, hpy, _, _, _⟩ := update_physParts dt s tgt h
    rw [hpy]
    have := physStep_ground_le_pos_y s.environment s.playerRadius s.onGround
      s.jumpRequested vel1 tgt.position dt
    rw [hg] at this
    exact this
  · intro s tgt h hg hjr hog hty hvy
    obtain ⟨vel1, hpy, hvel, _, hv1y⟩ := update_physParts dt s tgt h
    have hrest := physStep_rest s.environment s.playerRadius vel1 tgt.position dt
      hg (by rw [hv1y, hvy]) hty
    rw [hog, hjr] at hpy hvel
    exact ⟨by rw [hpy]; exact hrest.1, by rw [hvel]; exact hrest.2.1⟩

/-- Witness for C6 at concrete frames: a falling frame ends at or above
ground, and a resting frame stays exactly at rest. -/
theorem ground_clamp_idempotence_witness :
    0 ≤ targetPosY ((update 1 { init ⟨0, 0, 0⟩
        (some ⟨⟨0, 2, 0⟩, ⟨0, 0, 0, 1⟩⟩) (some ⟨0, 260, []⟩) 1.25 0.55 false with
        velocity := ⟨0, -3, 0⟩, onGround := false }).1)
    ∧ targetPosY ((update 1 (init ⟨0, 0, 0⟩
        (some ⟨⟨0, 0, 0⟩, ⟨0, 0, 0, 1⟩⟩) (some ⟨0, 260, []⟩)
        1.25 0.55 false)).1) = 0
    ∧ ((update 1 (init ⟨0, 0, 0⟩
        (some ⟨⟨0, 0, 0⟩, ⟨0, 0, 0, 1⟩⟩) (some ⟨0, 260, []⟩)
        1.25 0.55 false)).1).velocity.y = 0 := by
  refine ⟨?_, ?_, ?_⟩
  · exact (ground_clamp_idempotence 1).1
      { init ⟨0, 0, 0⟩ (some ⟨⟨0, 2, 0⟩, ⟨0, 0, 0, 1⟩⟩)
          (some ⟨0, 260, []⟩) 1.25 0.55 false with
        velocity := ⟨0, -3, 0⟩, onGround := false }
      ⟨⟨0, 2, 0⟩, ⟨0, 0, 0, 1⟩⟩ rfl rfl rfl (by norm_num) (by norm_num) (by norm_num)
  · exact ((ground_clamp_idempotence 1).2
      (init ⟨0, 0, 0⟩ (some ⟨⟨0, 0, 0⟩, ⟨0, 0, 0, 1⟩⟩) (some ⟨0, 260, []⟩)
        1.25 0.55 false) ⟨⟨0, 0, 0⟩, ⟨0, 0, 0, 1⟩⟩
      rfl rfl rfl rfl rfl rfl).1
  · exact ((ground_clamp_idempotence 1).2
      (init ⟨0, 0, 0⟩ (some ⟨⟨0, 0, 0⟩, ⟨0, 0, 0, 1⟩⟩) (some ⟨0, 260, []⟩)
        1.25 0.55 false) ⟨⟨0, 0, 0⟩, ⟨0, 0, 0, 1⟩⟩
      rfl rfl rfl rfl rfl rfl).2

-- World-bounds clamping.

theorem abs_clamp_le (v H m : ℝ) (h : m ≤ H) : |clamp v (-H + m) (H - m)| ≤ H - m := by
  refine abs_le.mpr ⟨?_, clamp_le _ _ _ (by linarith)⟩
  have h1 := le_clamp v (-H + m) (H - m)
  linarith

theorem physStep_pos_x_bound (env : Option Env) (pr : ℝ) (og jr : Bool)
    (vel1 pos0 : Vec3) (dt : ℝ) (hcols : collidersOf env = [])
    (hH : margin ≤ boundsHalfOf env) :
    |((physStep env pr og jr vel1 pos0 dt).pos).x| ≤ boundsHalfOf env - margin := by
  simp only [physStep, hcols, resolveColliders, List.foldl]
  exact abs_clamp_le _ _ _ hH

theorem physStep_pos_z_bound (env : Option Env) (pr : ℝ) (og jr : Bool)
    (vel1 pos0 : Vec3) (dt : ℝ) (hcols : collidersOf env = [])
    (hH : margin ≤ boundsHalfOf env) :
    |((physStep env pr og jr vel1 pos0 dt).pos).z| ≤ boundsHalfOf env - margin := by
  simp only [physStep, hcols, resolveColliders, List.foldl]
  exact abs_clamp_le _ _ _ hH

theorem update_physPosVel (dt : ℝ) (s : ThirdPersonController) (tgt : Target)
    (h : s.target = some tgt) :
    ∃ (cf : Vec3) (a : ℝ),
      targetPosX ((update dt s).1) =
        ((physStep s.environment s.playerRadius s.onGround s.jumpRequested
          (dampHoriz s.velocity (desiredVelOf s.keysDown cf) a dt)
          tgt.position dt).pos).x
      ∧ targetPosZ ((update dt s).1) =
        ((physStep s.environment s.playerRadius s.onGround s.jumpRequested
          (dampHoriz s.velocity (desiredVelOf s.keysDown cf) a dt)
          tgt.position dt).pos).z := by
  simp only [update, h, targetPosX, targetPosZ]
  exact ⟨_, _, rfl, rfl⟩

/-- C2 (amended): the bounds clamp keeps both horizontal coordinates within
`[-(H - margin), H - margin]` after `update` whenever the collider list is
empty (and `H ≥ margin`).  With colliders present the claim as stated fails:
collision resolution runs after the bounds clamp and can push the player
back outside, see the counterexample. -/
theorem bounds_clamp (dt : ℝ) (s : ThirdPersonController) (tgt : Target)
    (h : s.target = some tgt) (hcols : collidersOf s.environment = [])
    (hH : margin ≤ boundsHalfOf s.environment) :
    |targetPosX ((update dt s).1)| ≤ boundsHalfOf s.environment - margin
    ∧ |targetPosZ ((update dt s).1)| ≤ boundsHalfOf s.environment - margin := by
  obtain ⟨cf, a, hx, hz⟩ := update_physPosVel dt s tgt h
  constructor
  · rw [hx]; exact physStep_pos_x_bound _ _ _ _ _ _ _ hcols hH
  · rw [hz]; exact physStep_pos_z_bound _ _ _ _ _ _ _ hcols hH

theorem moveDirRawOf_nil (f : Vec3) : moveDirRawOf [] f = ⟨0, 0, 0⟩ := by
  simp [moveDirRawOf, moveInputX, moveInputZ]

theorem movingOf_nil (f : Vec3) : ¬ movingOf [] f := by
  simp [movingOf, moveDirRawOf_nil, Vec3.lengthSq]
  norm_num

theorem desiredVelOf_nil (f : Vec3) : desiredVelOf [] f = ⟨0, 0, 0⟩ := by
  simp [desiredVelOf, moveDirOf, movingOf_nil, moveDirRawOf_nil, Vec3.scale]

theorem dampHoriz_zero (accel dt : ℝ) :
    dampHoriz ⟨0, 0, 0⟩ ⟨0, 0, 0⟩ accel dt = ⟨0, 0, 0⟩ := by
  simp [dampHoriz, damp_fixed]

theorem bounds_cex_resolve :
    resolveColliders (11 / 20) [⟨⟨7, 0, 0⟩, 2⟩] (⟨8, 0, 0⟩, ⟨0, 0, 0⟩) =
      (⟨191 / 20, 0, 0⟩, ⟨0, 0, 0⟩) := by
  have hs : Real.sqrt ((8 - 7) * (8 - 7) + (0 - 0) * (0 - 0)) = 1 := by
    norm_num
  simp only [resolveColliders, List.foldl, resolveCollider]
  rw [if_pos (by norm_num), hs, if_neg (by norm_num : ¬ (1 : ℝ) = 0),
    if_neg (by norm_num : ¬ ((0 : ℝ) * ((8 - 7) / 1) + 0 * ((0 - 0) / 1) < 0))]
  norm_num

theorem bounds_cex_physStep :
    (physStep (some ⟨0, 10, [⟨⟨7, 0, 0⟩, 2⟩]⟩) 0.55 true false
      ⟨0, 0, 0⟩ ⟨8, 0, 0⟩ 1).pos = ⟨9.55, 0, 0⟩ := by
  have hclampx : clamp 8 (-10 + margin) (10 - margin) = 8 := by
    simp [clamp, margin]; norm_num
  have hclampz : clamp 0 (-10 + margin) (10 - margin) = 0 := by
    simp [clamp, margin]; norm_num
  simp only [physStep, groundYOf, boundsHalfOf, collidersOf]
  norm_num [Vec3.setY]
  rw [hclampx, hclampz, bounds_cex_resolve]

/-- Counterexample to C2 as stated: with `boundsHalfSize = 10` and a single
collider at `(7, 0)` of radius `2`, a player of radius `0.55` standing at
`x = 8` (inside the clamped band) is pushed to `x = 9.55 > 10 - margin` by
the collision resolution, which runs after the bounds clamp. -/
theorem bounds_clamp_counterexample :
    boundsHalfOf (init ⟨0, 0, 0⟩ (some ⟨⟨8, 0, 0⟩, ⟨0, 0, 0, 1⟩⟩)
      (some ⟨0, 10, [⟨⟨7, 0, 0⟩, 2⟩]⟩) 1.25 0.55 false).environment = 10
    ∧ targetPosX ((update 1 (init ⟨0, 0, 0⟩ (some ⟨⟨8, 0, 0⟩, ⟨0, 0, 0, 1⟩⟩)
        (some ⟨0, 10, [⟨⟨7, 0, 0⟩, 2⟩]⟩) 1.25 0.55 false)).1) = 9.55
    ∧ ¬ (|targetPosX ((update 1 (init ⟨0, 0, 0⟩ (some ⟨⟨8, 0, 0⟩, ⟨0, 0, 0, 1⟩⟩)
        (some ⟨0, 10, [⟨⟨7, 0, 0⟩, 2⟩]⟩) 1.25 0.55 false)).1)| ≤ 10 - margin) := by
  have hx : targetPosX ((update 1 (init ⟨0, 0, 0⟩ (some ⟨⟨8, 0, 0⟩, ⟨0, 0, 0, 1⟩⟩)
      (some ⟨0, 10, [⟨⟨7, 0, 0⟩, 2⟩]⟩) 1.25 0.55 false)).1) = 9.55 := by
    obtain ⟨cf, a, hx, _⟩ := update_physPosVel 1 (init ⟨0, 0, 0⟩
      (some ⟨⟨8, 0, 0⟩, ⟨0, 0, 0, 1⟩⟩) (some ⟨0, 10, [⟨⟨7, 0, 0⟩, 2⟩]⟩)
      1.25 0.55 false) ⟨⟨8, 0, 0⟩, ⟨0, 0, 0, 1⟩⟩ rfl
    rw [hx]
    show ((physStep (some ⟨0, 10, [⟨⟨7, 0, 0⟩, 2⟩]⟩) 0.55 true false
      (dampHoriz ⟨0, 0, 0⟩ (desiredVelOf [] cf) a 1) ⟨8, 0, 0⟩ 1).pos).x = 9.55
    rw [desiredVelOf_nil, dampHoriz_zero, bounds_cex_physStep]
  refine ⟨rfl, hx, ?_⟩
  rw [hx, abs_of_nonneg (by norm_num : (0 : ℝ) ≤ 9.55)]
  norm_num [margin]

/-- Witness for C2's amended theorem at a concrete frame. -/
theorem bounds_clamp_witness :
    collidersOf (init ⟨0, 0, 0⟩ (some ⟨⟨0, 0, 0⟩, ⟨0, 0, 0, 1⟩⟩)
      (some ⟨0, 10, []⟩) 1.25 0.55 false).environment = []
    ∧ margin ≤ boundsHalfOf (init ⟨0, 0, 0⟩ (some ⟨⟨0, 0, 0⟩, ⟨0, 0, 0, 1⟩⟩)
        (some ⟨0, 10, []⟩) 1.25 0.55 false).environment
    ∧ |targetPosX ((update 1 (init ⟨0, 0, 0⟩ (some ⟨⟨0, 0, 0⟩, ⟨0, 0, 0, 1⟩⟩)
        (some ⟨0, 10, []⟩) 1.25 0.55 false)).1)|
      ≤ boundsHalfOf (init ⟨0, 0, 0⟩ (some ⟨⟨0, 0, 0⟩, ⟨0, 0, 0, 1⟩⟩)
          (some ⟨0, 10, []⟩) 1.25 0.55 false).environment - margin := by
  refine ⟨rfl, by norm_num [margin, boundsHalfOf, init], ?_⟩
  exact (bounds_clamp 1 (init ⟨0, 0, 0⟩ (some ⟨⟨0, 0, 0⟩, ⟨0, 0, 0, 1⟩⟩)
      (some ⟨0, 10, []⟩) 1.25 0.55 false) ⟨⟨0, 0, 0⟩, ⟨0, 0, 0, 1⟩⟩ rfl rfl
      (by norm_num [margin, boundsHalfOf, init])).1

-- Collision resolution against a single circular collider.

/-- C3 (amended): for a single static collider, any pre-collision position at
horizontal distance strictly between `0` and `r + pr` from the collider
center, and any velocity, the obstacle-collision step leaves the player at
distance exactly `r + pr` (in particular at least `r + pr`).  At distance
exactly `0` the claim as stated fails: the `|| 0.0001` fallback only avoids
the division by zero, the resulting normal is `(0/0.0001, 0/0.0001) = (0,0)`
and the player is not displaced at all — see the counterexample. -/
theorem collision_nonpenetration (pr : ℝ) (c : Collider) (p v : Vec3)
    (hpos : 0 < (p.x - c.position.x) * (p.x - c.position.x) +
      (p.z - c.position.z) * (p.z - c.position.z))
    (hpen : (p.x - c.position.x) * (p.x - c.position.x) +
      (p.z - c.position.z) * (p.z - c.position.z) <
      (pr + c.radius) * (pr + c.radius))
    (hr : 0 ≤ pr + c.radius) :
    pr + c.radius ≤
      Real.sqrt ((((resolveColliders pr [c] (p, v)).1).x - c.position.x) ^ 2 +
        (((resolveColliders pr [c] (p, v)).1).z - c.position.z) ^ 2) := by
  have hd : Real.sqrt ((p.x - c.position.x) * (p.x - c.position.x) +
      (p.z - c.position.z) * (p.z - c.position.z)) ≠ 0 :=
    ne_of_gt (Real.sqrt_pos.mpr hpos)
  have hsq : Real.sqrt ((p.x - c.position.x) * (p.x - c.position.x) +
        (p.z - c.position.z) * (p.z - c.position.z)) ^ 2 =
      (p.x - c.position.x) * (p.x - c.position.x) +
        (p.z - c.position.z) * (p.z - c.position.z) := by
    rw [sq]; exact Real.mul_self_sqrt hpos.le
  simp only [resolveColliders, List.foldl, resolveCollider]
  rw [if_pos hpen, if_neg hd]
  dsimp only
  have hx : p.x + (p.x - c.position.x) /
        Real.sqrt ((p.x - c.position.x) * (p.x - c.position.x) +
          (p.z - c.position.z) * (p.z - c.position.z)) *
        (pr + c.radius - Real.sqrt ((p.x - c.position.x) * (p.x - c.position.x) +
          (p.z - c.position.z) * (p.z - c.position.z))) - c.position.x =
      (p.x - c.position.x) * (pr + c.radius) /
        Real.sqrt ((p.x - c.position.x) * (p.x - c.position.x) +
          (p.z - c.position.z) * (p.z - c.position.z)) := by
    field_simp
    ring
  have hz : p.z + (p.z - c.position.z) /
        Real.sqrt ((p.x - c.position.x) * (p.x - c.position.x) +
          (p.z - c.position.z) * (p.z - c.position.z)) *
        (pr + c.radius - Real.sqrt ((p.x - c.position.x) * (p.x - c.position.x) +
          (p.z - c.position.z) * (p.z - c.position.z))) - c.position.z =
      (p.z - c.position.z) * (pr + c.radius) /
        Real.sqrt ((p.x - c.position.x) * (p.x - c.position.x) +
          (p.z - c.position.z) * (p.z - c.position.z)) := by
    field_simp
    ring
  rw [hx, hz]
  have harg : ((p.x - c.position.x) * (pr + c.radius) /
        Real.sqrt ((p.x - c.position.x) * (p.x - c.position.x) +
          (p.z - c.position.z) * (p.z - c.position.z))) ^ 2 +
      ((p.z - c.position.z) * (pr + c.radius) /
        Real.sqrt ((p.x - c.position.x) * (p.x - c.position.x) +
          (p.z - c.position.z) * (p.z - c.position.z))) ^ 2 =
      (pr + c.radius) ^ 2 := by
    rw [div_pow, div_pow, hsq]
    field_simp
    ring
  rw [harg, Real.sqrt_sq hr]

/-- Counterexample to C3 as stated at distance exactly zero: a player whose
center coincides with the collider center is left unmoved by the collision
step (the fallback normal is the zero vector), so the post-step distance is
`0 < r + pr`. -/
theorem collision_center_counterexample :
    ((resolveColliders 0.55 [⟨⟨0, 0, 0⟩, 1⟩] (⟨0, 0, 0⟩, ⟨0, 0, 0⟩)).1).x = 0
    ∧ ((resolveColliders 0.55 [⟨⟨0, 0, 0⟩, 1⟩] (⟨0, 0, 0⟩, ⟨0, 0, 0⟩)).1).z = 0
    ∧ Real.sqrt
        ((((resolveColliders 0.55 [⟨⟨0, 0, 0⟩, 1⟩] (⟨0, 0, 0⟩, ⟨0, 0, 0⟩)).1).x
            - 0) ^ 2 +
          (((resolveColliders 0.55 [⟨⟨0, 0, 0⟩, 1⟩] (⟨0, 0, 0⟩, ⟨0, 0, 0⟩)).1).z
            - 0) ^ 2)
      < 0.55 + 1 := by
  have h0 : Real.sqrt (((0 : ℝ) - 0) * (0 - 0) + ((0 : ℝ) - 0) * (0 - 0)) = 0 := by
    norm_num
  have hres : (resolveColliders 0.55 [⟨⟨0, 0, 0⟩, 1⟩]
      (⟨0, 0, 0⟩, ⟨0, 0, 0⟩)).1 = (⟨0, 0, 0⟩ : Vec3) := by
    simp only [resolveColliders, List.foldl, resolveCollider]
    rw [if_pos (by norm_num), h0, if_pos rfl]
    norm_num
  rw [hres]
  norm_num

/-- Witness for C3's amended theorem at a concrete penetrating position. -/
theorem collision_nonpenetration_witness :
    (0 : ℝ) < (0.5 - 0) * (0.5 - 0) + (0 - 0) * (0 - 0)
    ∧ ((0.5 : ℝ) - 0) * (0.5 - 0) + (0 - 0) * (0 - 0) < (0.55 + 1) * (0.55 + 1)
    ∧ (0 : ℝ) ≤ 0.55 + 1
    ∧ 0.55 + 1 ≤
      Real.sqrt ((((resolveColliders 0.55 [⟨⟨0, 0, 0⟩, 1⟩]
            (⟨0.5, 0, 0⟩, ⟨0, 0, 0⟩)).1).x - 0) ^ 2 +
        (((resolveColliders 0.55 [⟨⟨0, 0, 0⟩, 1⟩]
            (⟨0.5, 0, 0⟩, ⟨0, 0, 0⟩)).1).z - 0) ^ 2) := by
  refine ⟨by norm_num, by norm_num, by norm_num, ?_⟩
  exact collision_nonpenetration 0.55 ⟨⟨0, 0, 0⟩, 1⟩ ⟨0.5, 0, 0⟩ ⟨0, 0, 0⟩
    (by norm_num) (by norm_num) (by norm_num)

-- Damping convergence.

theorem dampIter_succ_sub (c t lambda dt : ℝ) (n : ℕ) :
    dampIter c t lambda dt (n + 1) - t =
      (dampIter c t lambda dt n - t) * Real.exp (-lambda * dt) := by
  simp only [dampIter, damp, lerpScalar]
  ring

theorem dampIter_closed (c t lambda dt : ℝ) (n : ℕ) :
    dampIter c t lambda dt n - t = (c - t) * Real.exp (-lambda * dt) ^ n := by
  induction n with
  | zero => simp [dampIter]
  | succ n ih => rw [dampIter_succ_sub, ih]; ring

/-- C7: `damp` returns `current + (target - current) * (1 - e^(-lambda*dt))`,
and iterating it with `lambda > 0`, `dt > 0` converges to `target`
monotonically without ever overshooting. -/
theorem damp_convergence (current target lambda dt : ℝ) :
    damp current target lambda dt =
      current + (target - current) * (1 - Real.exp (-(lambda * dt)))
    ∧ (0 < lambda → 0 < dt →
      Filter.Tendsto (dampIter current target lambda dt) Filter.atTop (nhds target)
      ∧ (current ≤ target → ∀ n : ℕ,
          dampIter current target lambda dt n ≤ dampIter current target lambda dt (n + 1)
          ∧ dampIter current target lambda dt n ≤ target)
      ∧ (target ≤ current → ∀ n : ℕ,
          dampIter current target lambda dt (n + 1) ≤ dampIter current target lambda dt n
          ∧ target ≤ dampIter current target lambda dt n)) := by
  constructor
  · simp only [damp, lerpScalar, neg_mul]
    ring
  · intro hl hd
    have hk0 : (0 : ℝ) < Real.exp (-lambda * dt) := Real.exp_pos _
    have hk1 : Real.exp (-lambda * dt) < 1 := by
      rw [Real.exp_lt_one_iff]
      nlinarith
    have hkn : ∀ n : ℕ, (0 : ℝ) ≤ Real.exp (-lambda * dt) ^ n :=
      fun n => pow_nonneg hk0.le n
    refine ⟨?_, ?_, ?_⟩
    · have hpow : Filter.Tendsto (fun n : ℕ => Real.exp (-lambda * dt) ^ n)
          Filter.atTop (nhds 0) :=
        tendsto_pow_atTop_nhds_zero_of_lt_one hk0.le hk1
      have h2 : Filter.Tendsto
          (fun n : ℕ => target + (current - target) * Real.exp (-lambda * dt) ^ n)
          Filter.atTop (nhds (target + (current - target) * 0)) :=
        tendsto_const_nhds.add (tendsto_const_nhds.mul hpow)
      have hfun : dampIter current target lambda dt =
          fun n : ℕ => target + (current - target) * Real.exp (-lambda * dt) ^ n := by
        funext n
        have := dampIter_closed current target lambda dt n
        linarith
      rw [hfun]
      simpa using h2
    · intro hle n
      have h1 := dampIter_closed current target lambda dt n
      have h2 := dampIter_closed current target lambda dt (n + 1)
      have h3 : Real.exp (-lambda * dt) ^ (n + 1) ≤ Real.exp (-lambda * dt) ^ n := by
        rw [pow_succ]
        nlinarith [hkn n]
      constructor
      · nlinarith [hkn n, hkn (n + 1)]
      · nlinarith [hkn n]
    · intro hle n
      have h1 := dampIter_closed current target lambda dt n
      have h2 := dampIter_closed current target lambda dt (n + 1)
      have h3 : Real.exp (-lambda * dt) ^ (n + 1) ≤ Real.exp (-lambda * dt) ^ n := by
        rw [pow_succ]
        nlinarith [hkn n]
      constructor
      · nlinarith [hkn n, hkn (n + 1)]
      · nlinarith [hkn n]

/-- Witness for C7 at `current = 0`, `target = 1`, `lambda = 1`, `dt = 1`. -/
theorem damp_convergence_witness :
    damp 0 1 1 1 = 0 + (1 - 0) * (1 - Real.exp (-(1 * 1)))
    ∧ Filter.Tendsto (dampIter 0 1 1 1) Filter.atTop (nhds 1)
    ∧ (∀ n : ℕ, dampIter 0 1 1 1 n ≤ dampIter 0 1 1 1 (n + 1)
        ∧ dampIter 0 1 1 1 n ≤ 1) :=
  ⟨(damp_convergence 0 1 1 1).1,
   ((damp_convergence 0 1 1 1).2 (by norm_num) (by norm_num)).1,
   ((damp_convergence 0 1 1 1).2 (by norm_num) (by norm_num)).2.1 (by norm_num)⟩

-- Diagonal movement normalization.

theorem Vec3.lengthSq_scale (v : Vec3) (s : ℝ) :
    (v.scale s).lengthSq = v.lengthSq * (s * s) := by
  simp [Vec3.scale, Vec3.lengthSq]
  ring

theorem Vec3.length_ne_zero (v : Vec3) (h : 0 < v.lengthSq) : v.length ≠ 0 := by
  simp only [Vec3.length, Ne, Real.sqrt_eq_zero']
  exact not_le.mpr h

theorem Vec3.normalize_lengthSq (v : Vec3) (h : 0 < v.lengthSq) :
    (v.normalize).lengthSq = 1 := by
  have hlen := v.length_ne_zero h
  have hsq : v.length * v.length = v.lengthSq := Real.mul_self_sqrt (le_of_lt h)
  rw [Vec3.normalize, if_neg hlen, Vec3.lengthSq_scale]
  field_simp
  linarith

theorem desiredVel_length_moving (ks : List String) (f : Vec3)
    (hmove : movingOf ks f) :
    (desiredVelOf ks f).length = if isRunning ks then runSpeed else walkSpeed := by
  have hmove' : (1e-6 : ℝ) < (moveDirRawOf ks f).lengthSq := hmove
  have hpos : 0 < (moveDirRawOf ks f).lengthSq :=
    lt_trans (by norm_num) hmove'
  have h1 : (moveDirOf ks f).lengthSq = 1 := by
    rw [moveDirOf, if_pos hmove]
    exact Vec3.normalize_lengthSq _ hpos
  rw [desiredVelOf, if_pos hmove, Vec3.length, Vec3.lengthSq_scale, h1, one_mul]
  split_ifs
  · rw [show runSpeed * runSpeed = runSpeed ^ 2 by ring,
      Real.sqrt_sq (by norm_num [runSpeed])]
  · rw [show walkSpeed * walkSpeed = walkSpeed ^ 2 by ring,
      Real.sqrt_sq (by norm_num [walkSpeed])]

theorem camRight_eval (fx fz : ℝ) (hunit : fx * fx + fz * fz = 1) :
    ((⟨fx, 0, fz⟩ : Vec3).cross up).normalize = ⟨-fz, 0, fx⟩ := by
  have hcross : (⟨fx, 0, fz⟩ : Vec3).cross up = ⟨-fz, 0, fx⟩ := by
    simp [Vec3.cross, up]
  have hlen : (⟨-fz, 0, fx⟩ : Vec3).length = 1 := by
    rw [Vec3.length, show (⟨-fz, 0, fx⟩ : Vec3).lengthSq = 1 by
      simp [Vec3.lengthSq]; nlinarith]
    exact Real.sqrt_one
  rw [hcross, Vec3.normalize, hlen, if_neg one_ne_zero]
  simp [Vec3.scale]

/-- C8: two perpendicular movement keys produce a desired velocity of the
same magnitude as one key alone — `walkSpeed` (or `runSpeed` with shift) —
because the combined move-intent vector is normalized; and a velocity
already equal to the desired velocity is a fixed point of the damping, so
the steady-state horizontal speed equals that same magnitude. -/
theorem diagonal_normalization (fx fz : ℝ) (hunit : fx * fx + fz * fz = 1) :
    (desiredVelOf ["KeyW", "KeyD"] ⟨fx, 0, fz⟩).length = walkSpeed
    ∧ (desiredVelOf ["KeyW"] ⟨fx, 0, fz⟩).length = walkSpeed
    ∧ (desiredVelOf ["KeyW", "KeyD", "ShiftLeft"] ⟨fx, 0, fz⟩).length = runSpeed
    ∧ (desiredVelOf ["KeyW", "ShiftLeft"] ⟨fx, 0, fz⟩).length = runSpeed
    ∧ (∀ vx lambda dtv : ℝ, damp vx vx lambda dtv = vx) := by
  have hcr := camRight_eval fx fz hunit
  have hrawWD : ∀ ks : List String, ks.contains "KeyD" = true →
      ks.contains "KeyA" = false → ks.contains "KeyW" = true →
      ks.contains "KeyS" = false →
      moveDirRawOf ks ⟨fx, 0, fz⟩ = ⟨fx - fz, 0, fx + fz⟩ := by
    intro ks hD hA hW hS
    rw [moveDirRawOf]
    simp only [moveInputX, moveInputZ, hD, hA, hW, hS]
    rw [hcr]
    simp [Vec3.add, Vec3.scale]
    ring
  have hrawW : ∀ ks : List String, ks.contains "KeyD" = false →
      ks.contains "KeyA" = false → ks.contains "KeyW" = true →
      ks.contains "KeyS" = false →
      moveDirRawOf ks ⟨fx, 0, fz⟩ = ⟨fx, 0, fz⟩ := by
    intro ks hD hA hW hS
    rw [moveDirRawOf]
    simp only [moveInputX, moveInputZ, hD, hA, hW, hS]
    simp [Vec3.add, Vec3.scale]
  have hmWD : ∀ ks : List String, ks.contains "KeyD" = true →
      ks.contains "KeyA" = false → ks.contains "KeyW" = true →
      ks.contains "KeyS" = false → movingOf ks ⟨fx, 0, fz⟩ := by
    intro ks hD hA hW hS
    show (1e-6 : ℝ) < (moveDirRawOf ks ⟨fx, 0, fz⟩).lengthSq
    rw [hrawWD ks hD hA hW hS]
    simp only [Vec3.lengthSq]
    nlinarith
  have hmW : ∀ ks : List String, ks.contains "KeyD" = false →
      ks.contains "KeyA" = false → ks.contains "KeyW" = true →
      ks.contains "KeyS" = false → movingOf ks ⟨fx, 0, fz⟩ := by
    intro ks hD hA hW hS
    show (1e-6 : ℝ) < (moveDirRawOf ks ⟨fx, 0, fz⟩).lengthSq
    rw [hrawW ks hD hA hW hS]
    simp only [Vec3.lengthSq]
    nlinarith
  refine ⟨?_, ?_, ?_, ?_, fun vx lambda dtv => damp_fixed vx lambda dtv⟩
  · rw [desiredVel_length_moving _ _ (hmWD _ (by decide) (by decide) (by decide)
      (by decide))]
    simp [isRunning]
  · rw [desiredVel_length_moving _ _ (hmW _ (by decide) (by decide) (by decide)
      (by decide))]
    simp [isRunning]
  · rw [desiredVel_length_moving _ _ (hmWD _ (by decide) (by decide) (by decide)
      (by decide))]
    simp [isRunning]
  · rw [desiredVel_length_moving _ _ (hmW _ (by decide) (by decide) (by decide)
      (by decide))]
    simp [isRunning]

/-- Witness for C8 with the camera facing `(0, 0, -1)`. -/
theorem diagonal_normalization_witness :
    (0 : ℝ) * 0 + (-1) * (-1) = 1
    ∧ (desiredVelOf ["KeyW", "KeyD"] ⟨0, 0, -1⟩).length = walkSpeed
    ∧ (desiredVelOf ["KeyW"] ⟨0, 0, -1⟩).length = walkSpeed :=
  ⟨by norm_num,
   (diagonal_normalization 0 (-1) (by norm_num)).1,
   (diagonal_normalization 0 (-1) (by norm_num)).2.1⟩

-- Camera orbit clamps.

theorem onKeyDown_phi (e : KeyEvent) (s : ThirdPersonController) :
    (onKeyDown e s).phi = s.phi := by
  simp only [onKeyDown]
  split_ifs <;> rfl

theorem onKeyDown_distance (e : KeyEvent) (s : ThirdPersonController) :
    (onKeyDown e s).distance = s.distance := by
  simp only [onKeyDown]
  split_ifs <;> rfl

theorem onPointerDown_phi (e : PointerEvent) (s : ThirdPersonController) :
    (onPointerDown e s).phi = s.phi := by
  simp only [onPointerDown]
  split_ifs <;> rfl

theorem onPointerDown_distance (e : PointerEvent) (s : ThirdPersonController) :
    (onPointerDown e s).distance = s.distance := by
  simp only [onPointerDown]
  split_ifs <;> rfl

theorem onPointerUp_phi (e : PointerEvent) (s : ThirdPersonController) :
    (onPointerUp e s).phi = s.phi := by
  simp only [onPointerUp]
  split_ifs <;> rfl

theorem onPointerUp_distance (e : PointerEvent) (s : ThirdPersonController) :
    (onPointerUp e s).distance = s.distance := by
  simp only [onPointerUp]
  split_ifs <;> rfl

theorem onPointerMove_distance (e : PointerEvent) (s : ThirdPersonController) :
    (onPointerMove e s).distance = s.distance := by
  simp only [onPointerMove]
  split_ifs <;> rfl

theorem onPointerMove_phi_cases (e : PointerEvent) (s : ThirdPersonController) :
    (onPointerMove e s).phi = s.phi
    ∨ (minPhi ≤ (onPointerMove e s).phi ∧ (onPointerMove e s).phi ≤ maxPhi) := by
  simp only [onPointerMove]
  split_ifs
  · left; rfl
  · right
    exact ⟨le_clamp _ _ _, clamp_le _ _ _ (by norm_num [minPhi, maxPhi])⟩
  · left; rfl

theorem onWheel_phi (e : WheelEvent) (s : ThirdPersonController) :
    (onWheel e s).phi = s.phi := rfl

theorem onWheel_distance_mem (e : WheelEvent) (s : ThirdPersonController) :
    minDistance ≤ (onWheel e s).distance ∧ (onWheel e s).distance ≤ maxDistance := by
  exact ⟨le_clamp _ _ _, clamp_le _ _ _ (by norm_num [minDistance, maxDistance])⟩

theorem reachable_camera_inv : ∀ s : ThirdPersonController, Reachable s →
    minPhi ≤ s.phi ∧ s.phi ≤ maxPhi
    ∧ minDistance ≤ s.distance ∧ s.distance ≤ maxDistance := by
  intro s h
  induction h with
  | constructed cam tgt env th pr oj =>
      refine ⟨?_, ?_, ?_, ?_⟩ <;>
        norm_num [init, minPhi, maxPhi, minDistance, maxDistance]
  | keyDown s e _ ih =>
      rw [onKeyDown_phi, onKeyDown_distance]
      exact ih
  | keyUp s e _ ih => exact ih
  | pointerDown s e _ ih =>
      rw [onPointerDown_phi, onPointerDown_distance]
      exact ih
  | pointerMove s e _ ih =>
      rw [onPointerMove_distance]
      rcases onPointerMove_phi_cases e s with h1 | h1
      · rw [h1]; exact ih
      · exact ⟨h1.1, h1.2, ih.2.2⟩
  | pointerUp s e _ ih =>
      rw [onPointerUp_phi, onPointerUp_distance]
      exact ih
  | wheel s e _ ih =>
      rw [onWheel_phi]
      exact ⟨ih.1, ih.2.1, onWheel_distance_mem e s⟩
  | step s dt _ ih =>
      rw [update_phi, update_distance]
      exact ih

theorem onWheel_distance_negDelta (e : WheelEvent) (s : ThirdPersonController)
    (h : e.deltaY < 0) (hle : s.distance ≤ maxDistance) :
    (onWheel e s).distance = max minDistance (s.distance - 0.85) := by
  simp only [onWheel]
  rw [Real.sign_of_neg h, clamp,
    min_eq_right (by norm_num [maxDistance] at hle ⊢; linarith)]
  ring_nf

theorem max_sub_absorb (a y c : ℝ) (hc : 0 ≤ c) :
    max a (max a y - c) = max a (y - c) := by
  rcases le_total y a with h | h
  · rw [max_eq_left h, max_eq_left (by linarith), max_eq_left (by linarith)]
  · rw [max_eq_right h]

theorem wheelRun_neg (ds : List ℝ) :
    ∀ s : ThirdPersonController, (∀ d ∈ ds, d < 0) →
      minDistance ≤ s.distance → s.distance ≤ maxDistance →
      (wheelRun ds s).distance = max minDistance (s.distance - 0.85 * ds.length) := by
  induction ds with
  | nil =>
      intro s _ hmin _
      simp only [wheelRun, List.foldl, List.length_nil, Nat.cast_zero, mul_zero,
        sub_zero]
      rw [max_eq_right hmin]
  | cons d rest ih =>
      intro s hneg hmin hmax
      have hd : d < 0 := hneg d (List.mem_cons_self d rest)
      have hstep := onWheel_distance_negDelta ⟨d⟩ s hd hmax
      have h1 : wheelRun (d :: rest) s = wheelRun rest (onWheel ⟨d⟩ s) := rfl
      rw [h1, ih (onWheel ⟨d⟩ s)
        (fun d' hd' => hneg d' (List.mem_cons_of_mem _ hd'))
        (onWheel_distance_mem ⟨d⟩ s).1 (onWheel_distance_mem ⟨d⟩ s).2,
        hstep, max_sub_absorb _ _ _ (by positivity)]
      congr 1
      simp only [List.length_cons]
      push_cast
      ring

theorem wheelRun_saturates (s : ThirdPersonController) (ds : List ℝ)
    (hmin : minDistance ≤ s.distance) (hmax : s.distance ≤ maxDistance)
    (hneg : ∀ d ∈ ds, d < 0) (hlen : 17 ≤ ds.length) :
    (wheelRun ds s).distance = minDistance := by
  rw [wheelRun_neg ds s hneg hmin hmax]
  have hc : (17 : ℝ) ≤ (ds.length : ℝ) := by exact_mod_cast hlen
  rw [max_eq_left ?_]
  norm_num [minDistance, maxDistance] at hmax ⊢
  nlinarith

theorem pointerMove_phi_saturates (e : PointerEvent) (s : ThirdPersonController)
    (hdrag : s.dragging = true) (hm : pointerMatches s.pointerId e.pointerId)
    (hphi : s.phi ≤ maxPhi) (hdy : e.clientY - s.lastPointerY ≤ -215) :
    (onPointerMove e s).phi = minPhi := by
  simp only [onPointerMove, hdrag]
  rw [if_neg (by simp), if_neg (not_not_intro hm)]
  have hv : s.phi + (e.clientY - s.lastPointerY) * rotateSpeed ≤ minPhi := by
    have h1 : (e.clientY - s.lastPointerY) * rotateSpeed ≤ -215 * rotateSpeed :=
      mul_le_mul_of_nonneg_right hdy (by norm_num [rotateSpeed])
    norm_num [rotateSpeed, minPhi] at h1 ⊢
    norm_num [maxPhi] at hphi
    linarith
  show clamp _ minPhi maxPhi = minPhi
  rw [clamp, min_eq_right (le_trans hv (by norm_num [minPhi, maxPhi])),
    max_eq_left hv]

/-- C9: in every reachable controller state, `phi` lies in
`[minPhi, maxPhi]` and `distance` in `[minDistance, maxDistance]`; moreover
17 or more zoom-in wheel events saturate `distance` at exactly
`minDistance` (never below), and one sufficiently large upward drag delta
saturates `phi` at exactly `minPhi` (never below). -/
theorem camera_orbit_clamps :
    (∀ s : ThirdPersonController, Reachable s →
      minPhi ≤ s.phi ∧ s.phi ≤ maxPhi
      ∧ minDistance ≤ s.distance ∧ s.distance ≤ maxDistance)
    ∧ (∀ (s : ThirdPersonController) (ds : List ℝ), Reachable s →
      (∀ d ∈ ds, d < 0) → 17 ≤ ds.length →
      (wheelRun ds s).distance = minDistance)
    ∧ (∀ (s : ThirdPersonController) (e : PointerEvent), Reachable s →
      s.dragging = true → pointerMatches s.pointerId e.pointerId →
      e.clientY - s.lastPointerY ≤ -215 →
      (onPointerMove e s).phi = minPhi) := by
  refine ⟨reachable_camera_inv, ?_, ?_⟩
  · intro s ds hs hneg hlen
    obtain ⟨_, _, hmin, hmax⟩ := reachable_camera_inv s hs
    exact wheelRun_saturates s ds hmin hmax hneg hlen
  · intro s e hs hdrag hm hdy
    obtain ⟨_, hphi, _, _⟩ := reachable_camera_inv s hs
    exact pointerMove_phi_saturates e s hdrag hm hphi hdy

/-- Witness for C9 at concrete reachable states: the construction state
satisfies the invariant, 17 zoom-in wheel ticks reach `minDistance`, and a
`-215`-pixel upward drag reaches `minPhi`. -/
theorem camera_orbit_clamps_witness :
    (minPhi ≤ (init ⟨0, 0, 0⟩ none none 1.25 0.55 false).phi
      ∧ (init ⟨0, 0, 0⟩ none none 1.25 0.55 false).phi ≤ maxPhi
      ∧ minDistance ≤ (init ⟨0, 0, 0⟩ none none 1.25 0.55 false).distance
      ∧ (init ⟨0, 0, 0⟩ none none 1.25 0.55 false).distance ≤ maxDistance)
    ∧ (wheelRun (List.replicate 17 (-1))
        (init ⟨0, 0, 0⟩ none none 1.25 0.55 false)).distance = minDistance
    ∧ (onPointerMove ⟨0, 1, 0, -215⟩
        (onPointerDown ⟨0, 1, 0, 0⟩
          (init ⟨0, 0, 0⟩ none none 1.25 0.55 false))).phi = minPhi := by
  refine ⟨?_, ?_, ?_⟩
  · exact camera_orbit_clamps.1 _
      (Reachable.constructed ⟨0, 0, 0⟩ none none 1.25 0.55 false)
  · exact camera_orbit_clamps.2.1 _ (List.replicate 17 (-1))
      (Reachable.constructed ⟨0, 0, 0⟩ none none 1.25 0.55 false)
      (by intro d hd; rw [List.eq_of_mem_replicate hd]; norm_num)
      (by simp)
  · exact camera_orbit_clamps.2.2 _ ⟨0, 1, 0, -215⟩
      (Reachable.pointerDown _ ⟨0, 1, 0, 0⟩
        (Reachable.constructed ⟨0, 0, 0⟩ none none 1.25 0.55 false))
      (by simp [onPointerDown, init]) (by simp [onPointerDown, init, pointerMatches])
      (by simp [onPointerDown, init])

end Boarscape

end
